import Mathlib

/-!
Shallow embedding of the chat-app HTTP service (`src/index.js`): an Express
application over a SQLite database with two tables, `users` and `messages`,
and five request handlers.  Each handler issues one parameterized SQL
statement and builds a JSON response in the statement's callback, branching
only on whether the statement reported an error.

Modelling decisions, each traced to the source:
* The database state is the two tables, each a list of rows in rowid order,
  together with the next AUTOINCREMENT id (SQLite assigns 1, 2, 3, ...).
* `INSERT` binds JavaScript `undefined` (a missing body field) as SQL NULL,
  so a missing field hits the NOT NULL constraint and the statement errors;
  we model each bound body field as `Option String` with `none` for a
  missing field.
* `users.userid` carries a UNIQUE constraint: an insert whose userid is
  already present errors and leaves the table unchanged (statements are
  atomic in SQLite).
* The FOREIGN KEY clauses on `messages` are declared but not enforced:
  SQLite ships with `PRAGMA foreign_keys` off and the node `sqlite3` driver
  never enables it, so a message insert succeeds regardless of whether
  sender or receiver match any user row.
* `this.lastID` in the `db.run` callback is the rowid of the inserted row.
* `res.json(v)` responds with status 200 and body `v`;
  `res.status(500).json({error: ...})` responds with status 500.
-/

namespace ChatApp

/-- A scalar JSON value.  Every field this service ever serializes is a
string or a number. -/
inductive JVal where
  | str : String → JVal
  | num : Nat → JVal
deriving DecidableEq, Repr

/-- A flat JSON object: an ordered list of field-name/value pairs, in the
key order `res.json` serializes (JavaScript object insertion order). -/
abbrev JObj := List (String × JVal)

/-- A JSON response body.  Every body this service produces is either a
single flat object or an array of flat objects. -/
inductive Json where
  | obj : JObj → Json
  | arr : List JObj → Json
deriving DecidableEq, Repr

/-- An HTTP response: status code plus JSON body. -/
structure HttpResponse where
  status : Nat
  body : Json
deriving DecidableEq, Repr

/-- A row of the `users` table: `id INTEGER PRIMARY KEY AUTOINCREMENT,
userid TEXT UNIQUE NOT NULL, username TEXT NOT NULL`. -/
structure UserRow where
  id : Nat
  userid : String
  username : String
deriving DecidableEq, Repr

/-- A row of the `messages` table: `id INTEGER PRIMARY KEY AUTOINCREMENT,
sender TEXT NOT NULL, receiver TEXT NOT NULL, message TEXT NOT NULL`. -/
structure MessageRow where
  id : Nat
  sender : String
  receiver : String
  message : String
deriving DecidableEq, Repr

/-- The SQLite database `user_messages.sqlite`: both tables in rowid order
plus the next AUTOINCREMENT value of each. -/
structure DB where
  users : List UserRow
  usersNextId : Nat
  messages : List MessageRow
  messagesNextId : Nat
deriving DecidableEq, Repr

/-- The freshly created database: both tables empty, AUTOINCREMENT at 1. -/
def initDB : DB := ⟨[], 1, [], 1⟩

/-- Errors a SQLite statement can report to its callback. -/
inductive SqlErr where
  | notNullViolation
  | uniqueViolation
  | ioFailure
deriving DecidableEq, Repr

/-- `true` exactly when a statement outcome is an error. -/
def exceptFailed {α : Type} : Except SqlErr α → Bool
  | .error _ => true
  | .ok _ => false

/-- The fixed error response every handler produces on a store error:
`res.status(500).json({ error: 'Internal server error' })`. -/
def internalServerError : HttpResponse :=
  ⟨500, .obj [("error", .str "Internal server error")]⟩

/-- A row of the projection `SELECT userid,username FROM users`. -/
structure UserView where
  userid : String
  username : String
deriving DecidableEq, Repr

/-- `SELECT userid,username FROM users` in rowid order. -/
def selectUseridUsername (db : DB) : List UserView :=
  db.users.map (fun r => ⟨r.userid, r.username⟩)

/-- JSON serialization of one projected user row. -/
def encodeUserView (v : UserView) : JObj :=
  [("userid", .str v.userid), ("username", .str v.username)]

/-- JSON serialization of one full message row (`SELECT *`). -/
def encodeMessageRow (r : MessageRow) : JObj :=
  [("id", .num r.id), ("sender", .str r.sender),
   ("receiver", .str r.receiver), ("message", .str r.message)]

/-- `INSERT INTO users (userid, username) VALUES (?, ?)`: fails on a NULL
username (NOT NULL) or a duplicate userid (UNIQUE); otherwise appends one
row with the next AUTOINCREMENT id. -/
def insertUser (db : DB) (userid : String) (username : Option String) :
    Except SqlErr DB :=
  match username with
  | none => .error .notNullViolation
  | some uname =>
    if db.users.any (fun r => r.userid = userid) then
      .error .uniqueViolation
    else
      .ok { db with
              users := db.users ++ [⟨db.usersNextId, userid, uname⟩],
              usersNextId := db.usersNextId + 1 }

/-- `INSERT INTO messages (sender, receiver, message) VALUES (?, ?, ?)`:
fails only if some bound field is NULL (NOT NULL); the declared FOREIGN KEY
constraints are not enforced (see module comment). On success returns the
new state together with the inserted row, whose `id` is `this.lastID`. -/
def insertMessage (db : DB) (sender receiver message : Option String) :
    Except SqlErr (DB × MessageRow) :=
  match sender, receiver, message with
  | some s, some r, some m =>
      let row : MessageRow := ⟨db.messagesNextId, s, r, m⟩
      .ok ({ db with
               messages := db.messages ++ [row],
               messagesNextId := db.messagesNextId + 1 }, row)
  | _, _, _ => .error .notNullViolation

/-- `SELECT * FROM messages WHERE receiver = ?` (exact string match). -/
def selectMessagesForReceiver (db : DB) (userid : String) : List MessageRow :=
  db.messages.filter (fun row => row.receiver = userid)

/-- `SELECT * FROM messages`, unfiltered. -/
def selectAllMessages (db : DB) : List MessageRow := db.messages

/-- Callback of `GET /users`: on error the fixed 500 body, otherwise
`res.json(rows)`. -/
def usersListCallback (r : Except SqlErr (List UserView)) : HttpResponse :=
  match r with
  | .error _ => internalServerError
  | .ok rows => ⟨200, .arr (rows.map encodeUserView)⟩

/-- Callback of `POST /users`: on error the fixed 500 body, otherwise
`res.json({ userid })` with the server-generated userid from the closure. -/
def userInsertCallback (userid : String) (r : Except SqlErr Unit) :
    HttpResponse :=
  match r with
  | .error _ => internalServerError
  | .ok _ => ⟨200, .obj [("userid", .str userid)]⟩

/-- Callback of `POST /messages`: on error the fixed 500 body, otherwise
`res.json({ message: 'Message sent successfully', id: this.lastID })`. -/
def messageInsertCallback (r : Except SqlErr Nat) : HttpResponse :=
  match r with
  | .error _ => internalServerError
  | .ok lastID =>
      ⟨200, .obj [("message", .str "Message sent successfully"),
                  ("id", .num lastID)]⟩

/-- Callback of `GET /messages/:userid`: on error the fixed 500 body,
otherwise `res.json(rows)`. -/
def messagesForCallback (r : Except SqlErr (List MessageRow)) : HttpResponse :=
  match r with
  | .error _ => internalServerError
  | .ok rows => ⟨200, .arr (rows.map encodeMessageRow)⟩

/-- Callback of `GET /super/messages`: on error the fixed 500 body,
otherwise `res.json(rows)`. -/
def superMessagesCallback (r : Except SqlErr (List MessageRow)) :
    HttpResponse :=
  match r with
  | .error _ => internalServerError
  | .ok rows => ⟨200, .arr (rows.map encodeMessageRow)⟩

/-- `GET /users`: a SELECT never mutates the database; the handler passes
the rows to its callback. -/
def getUsers (db : DB) : DB × HttpResponse :=
  (db, usersListCallback (.ok (selectUseridUsername db)))

/-- `POST /users`: generate `userid = uuidv4()` (here a parameter, since it
is random and independent of the request), run the insert, and answer from
the callback.  On error the database is unchanged. -/
def postUsers (db : DB) (userid : String) (username : Option String) :
    DB × HttpResponse :=
  match insertUser db userid username with
  | .error e => (db, userInsertCallback userid (.error e))
  | .ok db2 => (db2, userInsertCallback userid (.ok ()))

/-- `POST /messages`: destructure `{sender, receiver, message}` from the
body, run the insert, and answer from the callback with `this.lastID`. -/
def postMessages (db : DB) (sender receiver message : Option String) :
    DB × HttpResponse :=
  match insertMessage db sender receiver message with
  | .error e => (db, messageInsertCallback (.error e))
  | .ok (db2, row) => (db2, messageInsertCallback (.ok row.id))

/-- `GET /messages/:userid`. -/
def getMessagesFor (db : DB) (userid : String) : DB × HttpResponse :=
  (db, messagesForCallback (.ok (selectMessagesForReceiver db userid)))

/-- `GET /super/messages`: no authorization parameter exists — the handler
body starts at the SELECT (the auth comment in the source is a placeholder). -/
def getSuperMessages (db : DB) : DB × HttpResponse :=
  (db, superMessagesCallback (.ok (selectAllMessages db)))

/-- One API request, with the server-generated userid and the decoded body
fields as data. -/
inductive Op where
  | createUser (userid : String) (username : Option String)
  | sendMessage (sender receiver message : Option String)
  | listUsers
  | listMessagesFor (userid : String)
  | listAllMessages
deriving DecidableEq, Repr

/-- Dispatch one request against the current database. -/
def applyOp (db : DB) : Op → DB × HttpResponse
  | .createUser uid uname => postUsers db uid uname
  | .sendMessage s r m => postMessages db s r m
  | .listUsers => getUsers db
  | .listMessagesFor uid => getMessagesFor db uid
  | .listAllMessages => getSuperMessages db

/-- Run a sequence of requests, returning the final database. -/
def runOps (db : DB) : List Op → DB
  | [] => db
  | op :: rest => runOps (applyOp db op).1 rest

/-- The `userid` column of the `users` table. -/
def userids (db : DB) : List String := db.users.map (fun r => r.userid)

/-- The userids returned by the successful user-creation requests of a run,
in order. -/
def createdUserids (db : DB) : List Op → List String
  | [] => []
  | op :: rest =>
    match op with
    | .createUser uid _ =>
        if ((applyOp db op).2).status = 200 then
          uid :: createdUserids (applyOp db op).1 rest
        else
          createdUserids (applyOp db op).1 rest
    | _ => createdUserids (applyOp db op).1 rest

/-- The message rows inserted by the successful send-message requests of a
run, in order. -/
def sentRows (db : DB) : List Op → List MessageRow
  | [] => []
  | op :: rest =>
    match op with
    | .sendMessage s r m =>
        match insertMessage db s r m with
        | .ok (_, row) => row :: sentRows (applyOp db op).1 rest
        | .error _ => sentRows (applyOp db op).1 rest
    | _ => sentRows (applyOp db op).1 rest

/-! ### Helper lemmas shared by the claim theorems -/

/-- A message insert with all three fields bound succeeds, appends exactly
the one row carrying the next AUTOINCREMENT id, and answers 200 with
`this.lastID`. -/
theorem postMessages_some (db : DB) (a b c : String) :
    postMessages db (some a) (some b) (some c)
      = (⟨db.users, db.usersNextId,
          db.messages ++ [⟨db.messagesNextId, a, b, c⟩],
          db.messagesNextId + 1⟩,
         ⟨200, Json.obj [("message", JVal.str "Message sent successfully"),
                         ("id", JVal.num db.messagesNextId)]⟩) := rfl

/-- A message insert with a missing field hits NOT NULL: the handler
answers the fixed 500 body and the database is unchanged. -/
theorem postMessages_missing (db : DB) (s r m : Option String)
    (h : s = none ∨ r = none ∨ m = none) :
    postMessages db s r m = (db, internalServerError) := by
  rcases s with _ | a <;> rcases r with _ | b <;> rcases m with _ | c <;>
    simp_all [postMessages, insertMessage, messageInsertCallback]

/-- `POST /messages` never touches the `users` table. -/
theorem postMessages_users (db : DB) (s r m : Option String) :
    (postMessages db s r m).1.users = db.users := by
  rcases s with _ | a <;> rcases r with _ | b <;> rcases m with _ | c <;> rfl

/-- Inverting a successful `POST /users`: the username was bound, the
userid was fresh, exactly one user row was appended, and the response is
200 with the server-generated userid. -/
theorem postUsers_success (db : DB) (uid : String) (uname : Option String)
    (h : ((postUsers db uid uname).2).status = 200) :
    ∃ u, uname = some u ∧
      db.users.any (fun r => r.userid = uid) = false ∧
      (postUsers db uid uname).1
        = { db with users := db.users ++ [⟨db.usersNextId, uid, u⟩],
                    usersNextId := db.usersNextId + 1 } ∧
      (postUsers db uid uname).2
        = ⟨200, Json.obj [("userid", JVal.str uid)]⟩ := by
  cases uname with
  | none =>
    simp [postUsers, insertUser, userInsertCallback, internalServerError] at h
  | some u =>
    by_cases hdup : db.users.any (fun r => r.userid = uid)
    · simp [postUsers, insertUser, hdup, userInsertCallback,
        internalServerError] at h
    · exact ⟨u, rfl, by simpa using hdup,
        by simp [postUsers, insertUser, hdup],
        by simp [postUsers, insertUser, hdup, userInsertCallback]⟩

/-- A failed `POST /users` leaves the database unchanged and answers the
fixed 500 body. -/
theorem postUsers_failure (db : DB) (uid : String) (uname : Option String)
    (h : ¬ ((postUsers db uid uname).2).status = 200) :
    postUsers db uid uname = (db, internalServerError) := by
  cases uname with
  | none => rfl
  | some u =>
    by_cases hdup : db.users.any (fun r => r.userid = uid)
    · simp [postUsers, insertUser, hdup, userInsertCallback]
    · simp [postUsers, insertUser, hdup, userInsertCallback] at h

/-- `POST /users` never touches the `messages` table. -/
theorem postUsers_messages (db : DB) (uid : String) (uname : Option String) :
    (postUsers db uid uname).1.messages = db.messages := by
  cases uname with
  | none => rfl
  | some u =>
    by_cases hdup : db.users.any (fun r => r.userid = uid) <;>
      simp [postUsers, insertUser, hdup]

/-! ### Claim theorems -/

/-- C8: every successful `POST /messages` answers 200 with the body
`{message: "Message sent successfully", id}` where `id` is exactly the
AUTOINCREMENT row id assigned to the newly inserted message row. -/
theorem send_success_response (db : DB) (s r m : String) :
    ((postMessages db (some s) (some r) (some m)).2)
        = ⟨200, Json.obj [("message", JVal.str "Message sent successfully"),
                          ("id", JVal.num db.messagesNextId)]⟩ ∧
    (postMessages db (some s) (some r) (some m)).1.messages
        = db.messages ++ [⟨db.messagesNextId, s, r, m⟩] :=
  ⟨rfl, rfl⟩

/-- C7: listing messages for a receiver that no stored message row names
yields 200 with an empty JSON array, not an error. -/
theorem empty_receiver_result (db : DB) (r : String)
    (h : ∀ row ∈ db.messages, row.receiver ≠ r) :
    (getMessagesFor db r).2 = ⟨200, Json.arr []⟩ := by
  have hnil : selectMessagesForReceiver db r = [] := by
    simp only [selectMessagesForReceiver, List.filter_eq_nil_iff]
    intro a ha
    simpa using h a ha
  simp [getMessagesFor, messagesForCallback, hnil]

theorem empty_receiver_result_witness :
    (getMessagesFor ⟨[], 1, [⟨1, "a", "b", "hi"⟩], 2⟩ "c").2
      = ⟨200, Json.arr []⟩ :=
  empty_receiver_result ⟨[], 1, [⟨1, "a", "b", "hi"⟩], 2⟩ "c" (by decide)

/-- C5: `POST /messages` performs no existence check on sender or
receiver — even when neither matches any user's userid the handler answers
200 and the row is inserted (the declared FOREIGN KEYs are not enforced
because SQLite leaves `PRAGMA foreign_keys` off and the driver never
enables it). -/
theorem no_existence_validation (db : DB) (s r m : String)
    (_hs : s ∉ userids db) (_hr : r ∉ userids db) :
    ((postMessages db (some s) (some r) (some m)).2).status = 200 ∧
    (postMessages db (some s) (some r) (some m)).1.messages
      = db.messages ++ [⟨db.messagesNextId, s, r, m⟩] :=
  ⟨rfl, rfl⟩

theorem no_existence_validation_witness :
    ((postMessages ⟨[⟨1, "u", "alice"⟩], 2, [], 1⟩
        (some "x") (some "y") (some "hi")).2).status = 200 ∧
    (postMessages ⟨[⟨1, "u", "alice"⟩], 2, [], 1⟩
        (some "x") (some "y") (some "hi")).1.messages
      = [] ++ [⟨1, "x", "y", "hi"⟩] :=
  no_existence_validation ⟨[⟨1, "u", "alice"⟩], 2, [], 1⟩ "x" "y" "hi"
    (by decide) (by decide)

/-- C10: a `POST /users` whose body lacks `username`, or a
`POST /messages` missing any of its three fields, binds NULL, fails the
NOT NULL constraint, answers 500 with the fixed body, and leaves the
corresponding table (indeed the whole database) unchanged. -/
theorem atomic_on_missing_field (db : DB) (uid : String)
    (s r m : Option String) (h : s = none ∨ r = none ∨ m = none) :
    postUsers db uid none = (db, internalServerError) ∧
    postMessages db s r m = (db, internalServerError) :=
  ⟨rfl, postMessages_missing db s r m h⟩

theorem atomic_on_missing_field_witness :
    postUsers initDB "u" none = (initDB, internalServerError) ∧
    postMessages initDB (some "a") none (some "hi")
      = (initDB, internalServerError) :=
  atomic_on_missing_field initDB "u" (some "a") none (some "hi")
    (by decide)

/-- C4: each of the five handlers answers 500 exactly when its store
operation fails, and on failure the response is precisely the fixed body
`{error: "Internal server error"}` with no detail of the underlying
error. -/
theorem uniform_error_responses :
    internalServerError
        = ⟨500, Json.obj [("error", JVal.str "Internal server error")]⟩ ∧
    (∀ r : Except SqlErr (List UserView),
       ((usersListCallback r).status = 500 ↔ exceptFailed r = true) ∧
       (exceptFailed r = true → usersListCallback r = internalServerError)) ∧
    (∀ (uid : String) (r : Except SqlErr Unit),
       ((userInsertCallback uid r).status = 500 ↔ exceptFailed r = true) ∧
       (exceptFailed r = true →
          userInsertCallback uid r = internalServerError)) ∧
    (∀ r : Except SqlErr Nat,
       ((messageInsertCallback r).status = 500 ↔ exceptFailed r = true) ∧
       (exceptFailed r = true →
          messageInsertCallback r = internalServerError)) ∧
    (∀ r : Except SqlErr (List MessageRow),
       ((messagesForCallback r).status = 500 ↔ exceptFailed r = true) ∧
       (exceptFailed r = true →
          messagesForCallback r = internalServerError)) ∧
    (∀ r : Except SqlErr (List MessageRow),
       ((superMessagesCallback r).status = 500 ↔ exceptFailed r = true) ∧
       (exceptFailed r = true →
          superMessagesCallback r = internalServerError)) := by
  refine ⟨rfl, ?_, ?_, ?_, ?_, ?_⟩
  · rintro (e | rows) <;>
      simp [usersListCallback, exceptFailed, internalServerError]
  · rintro uid (e | u) <;>
      simp [userInsertCallback, exceptFailed, internalServerError]
  · rintro (e | n) <;>
      simp [messageInsertCallback, exceptFailed, internalServerError]
  · rintro (e | rows) <;>
      simp [messagesForCallback, exceptFailed, internalServerError]
  · rintro (e | rows) <;>
      simp [superMessagesCallback, exceptFailed, internalServerError]

theorem uniform_error_responses_witness :
    usersListCallback (Except.error SqlErr.ioFailure) = internalServerError ∧
    userInsertCallback "u" (Except.error SqlErr.uniqueViolation)
      = internalServerError ∧
    messageInsertCallback (Except.error SqlErr.notNullViolation)
      = internalServerError ∧
    messagesForCallback (Except.error SqlErr.ioFailure)
      = internalServerError ∧
    superMessagesCallback (Except.error SqlErr.ioFailure)
      = internalServerError := by
  have h := uniform_error_responses
  exact ⟨(h.2.1 _).2 rfl, (h.2.2.1 "u" _).2 rfl, (h.2.2.2.1 _).2 rfl,
    (h.2.2.2.2.1 _).2 rfl, (h.2.2.2.2.2 _).2 rfl⟩

/-- C1: after a successful `POST /users` for username `uname` that answered
`{userid: uid}`, the next `GET /users` answers 200 with a JSON array that
contains the object `{userid: uid, username: uname}`, and every element of
that array has exactly the two fields `userid` and `username` (the internal
auto-increment id is not exposed, by the `SELECT userid,username`
projection). -/
theorem create_then_list_roundtrip (db : DB) (uid uname : String)
    (db2 : DB) (resp : HttpResponse)
    (h : postUsers db uid (some uname) = (db2, resp))
    (hs : resp.status = 200) :
    resp.body = Json.obj [("userid", JVal.str uid)] ∧
    getUsers db2
      = (db2, ⟨200, Json.arr
          ((selectUseridUsername db2).map encodeUserView)⟩) ∧
    encodeUserView ⟨uid, uname⟩
      ∈ (selectUseridUsername db2).map encodeUserView ∧
    ∀ j ∈ (selectUseridUsername db2).map encodeUserView,
      ∃ a b, j = [("userid", JVal.str a), ("username", JVal.str b)] := by
  have hs' : ((postUsers db uid (some uname)).2).status = 200 := by
    rw [h]; exact hs
  obtain ⟨u, hu, hfresh, h1, h2⟩ := postUsers_success db uid (some uname) hs'
  obtain rfl : uname = u := by injection hu
  have hdb2 : db2 = (postUsers db uid (some uname)).1 := by rw [h]
  have hresp : resp = (postUsers db uid (some uname)).2 := by rw [h]
  refine ⟨by rw [hresp, h2], rfl, ?_, ?_⟩
  · rw [hdb2, h1]
    refine List.mem_map_of_mem encodeUserView ?_
    simp [selectUseridUsername]
  · intro j hj
    simp only [List.mem_map] at hj
    obtain ⟨v, _, hv⟩ := hj
    exact ⟨v.userid, v.username, hv.symm⟩

theorem create_then_list_roundtrip_witness :
    ((postUsers initDB "u1" (some "alice")).2).body
        = Json.obj [("userid", JVal.str "u1")] ∧
    getUsers (postUsers initDB "u1" (some "alice")).1
      = ((postUsers initDB "u1" (some "alice")).1,
         ⟨200, Json.arr
           ((selectUseridUsername
               (postUsers initDB "u1" (some "alice")).1).map
             encodeUserView)⟩) ∧
    encodeUserView ⟨"u1", "alice"⟩
      ∈ (selectUseridUsername
          (postUsers initDB "u1" (some "alice")).1).map encodeUserView ∧
    ∀ j ∈ (selectUseridUsername
        (postUsers initDB "u1" (some "alice")).1).map encodeUserView,
      ∃ a b, j = [("userid", JVal.str a), ("username", JVal.str b)] :=
  create_then_list_roundtrip initDB "u1" "alice" _ _ rfl (by decide)

/-- C2: after a successful `POST /messages` with sender `A`, receiver `B`
and text `m`, listing messages for `B` includes a row whose three fields
are exactly `A`, `B`, `m`; and for every database and receiver `p`,
`GET /messages/p` answers 200 with exactly the encoding of the stored rows
whose `receiver` equals `p` (exact string match), and a row is in that
selection precisely when it is stored and its receiver is `p`. -/
theorem send_then_list_roundtrip (db : DB) (A B m : String) :
    (∃ row ∈ selectMessagesForReceiver
        (postMessages db (some A) (some B) (some m)).1 B,
        row.sender = A ∧ row.receiver = B ∧ row.message = m) ∧
    (∀ (d : DB) (p : String),
        getMessagesFor d p
          = (d, ⟨200, Json.arr
              ((selectMessagesForReceiver d p).map encodeMessageRow)⟩)) ∧
    (∀ (d : DB) (p : String) (row : MessageRow),
        row ∈ selectMessagesForReceiver d p ↔
          row ∈ d.messages ∧ row.receiver = p) := by
  refine ⟨?_, fun d p => rfl, fun d p row => ?_⟩
  · refine ⟨⟨db.messagesNextId, A, B, m⟩, ?_, rfl, rfl, rfl⟩
    rw [postMessages_some]
    simp [selectMessagesForReceiver]
  · simp [selectMessagesForReceiver, List.mem_filter]

/-- Any request either leaves the `users` table unchanged or is a
successful user creation appending exactly one row with a fresh userid. -/
theorem applyOp_users_cases (db : DB) (op : Op) :
    (applyOp db op).1.users = db.users ∨
    ∃ uid u, op = .createUser uid (some u) ∧
      db.users.any (fun r => r.userid = uid) = false ∧
      (applyOp db op).1.users
        = db.users ++ [⟨db.usersNextId, uid, u⟩] := by
  cases op with
  | createUser uid uname =>
    cases uname with
    | none => exact Or.inl rfl
    | some u =>
      by_cases hdup : db.users.any (fun r => r.userid = uid)
      · exact Or.inl (by simp [applyOp, postUsers, insertUser, hdup])
      · refine Or.inr ⟨uid, u, rfl, by simpa using hdup, ?_⟩
        simp [applyOp, postUsers, insertUser, hdup]
  | sendMessage s r m => exact Or.inl (postMessages_users db s r m)
  | listUsers => exact Or.inl rfl
  | listMessagesFor uid => exact Or.inl rfl
  | listAllMessages => exact Or.inl rfl

/-- One request preserves distinctness of the stored userids: the UNIQUE
constraint rejects any insert whose userid is already present. -/
theorem userids_nodup_applyOp (db : DB) (op : Op)
    (h : (userids db).Nodup) : (userids (applyOp db op).1).Nodup := by
  rcases applyOp_users_cases db op with heq | ⟨uid, u, _, hfresh, heq⟩
  · simp only [userids] at h ⊢
    rw [heq]; exact h
  · simp only [userids] at h ⊢
    rw [heq, List.map_append, List.nodup_append]
    refine ⟨h, List.nodup_singleton _, ?_⟩
    intro x hx hb
    simp only [List.map_cons, List.map_nil, List.mem_singleton] at hb
    simp only [List.mem_map] at hx
    obtain ⟨r, hr, hruid⟩ := hx
    have hcon : ¬ (db.users.any fun r => decide (r.userid = uid)) = true := by
      simp [hfresh]
    exact hcon (List.any_eq_true.mpr ⟨r, hr, by simp [hruid, hb]⟩)

/-- The userid-distinctness invariant holds in every state reachable from
the fresh database. -/
theorem userids_runOps_nodup (ops : List Op) (db : DB)
    (h : (userids db).Nodup) : (userids (runOps db ops)).Nodup := by
  induction ops generalizing db with
  | nil => exact h
  | cons op rest ih => exact ih _ (userids_nodup_applyOp db op h)

/-- The userids handed out by the successful creations of a run are
pairwise distinct, and all of them are fresh with respect to the starting
table. -/
theorem createdUserids_spec (ops : List Op) (db : DB)
    (h : (userids db).Nodup) :
    (createdUserids db ops).Nodup ∧
    ∀ u ∈ createdUserids db ops, u ∉ userids db := by
  induction ops generalizing db with
  | nil => simp [createdUserids]
  | cons op rest ih =>
    have hnext := userids_nodup_applyOp db op h
    cases op with
    | createUser uid uname =>
      by_cases hst : ((applyOp db (Op.createUser uid uname)).2).status = 200
      · have hst' : ((postUsers db uid uname).2).status = 200 := hst
        obtain ⟨u, hu, hfresh, h1, _⟩ := postUsers_success db uid uname hst'
        obtain ⟨nd, hnotin⟩ := ih _ hnext
        have huserids : userids (applyOp db (Op.createUser uid uname)).1
            = userids db ++ [uid] := by
          show userids (postUsers db uid uname).1 = _
          rw [h1]
          simp [userids]
        have hfresh' : uid ∉ userids db := by
          simp only [userids, List.mem_map, not_exists]
          intro r hrm
          rcases hrm with ⟨hr, hruid⟩
          have : ¬ (db.users.any fun r => decide (r.userid = uid)) = true := by
            simp [hfresh]
          exact this (List.any_eq_true.mpr ⟨r, hr, by simp [hruid]⟩)
        constructor
        · simp only [createdUserids, hst, if_true]
          rw [List.nodup_cons]
          refine ⟨fun hmem => ?_, nd⟩
          have hni := hnotin uid hmem
          rw [huserids] at hni
          simp at hni
        · intro v hv
          simp only [createdUserids, hst, if_true, List.mem_cons] at hv
          rcases hv with rfl | hv
          · exact hfresh'
          · have hni := hnotin v hv
            rw [huserids] at hni
            simp only [List.mem_append, List.mem_singleton, not_or] at hni
            exact hni.1
      · have hdb : (applyOp db (Op.createUser uid uname)).1 = db := by
          show (postUsers db uid uname).1 = db
          rw [postUsers_failure db uid uname hst]
        constructor
        · simp only [createdUserids, hst, if_false]
          rw [hdb]
          exact (ih db h).1
        · intro v hv
          simp only [createdUserids, hst, if_false, hdb] at hv
          exact (ih db h).2 v hv
    | sendMessage s r m =>
      have husers : userids (applyOp db (Op.sendMessage s r m)).1
          = userids db := by
        simp only [userids]
        rw [show (applyOp db (Op.sendMessage s r m)).1.users = db.users
          from postMessages_users db s r m]
      obtain ⟨nd, hnotin⟩ := ih _ hnext
      refine ⟨by simpa only [createdUserids] using nd, ?_⟩
      intro v hv
      simp only [createdUserids] at hv
      have hni := hnotin v hv
      rw [husers] at hni
      exact hni
    | listUsers =>
      exact ⟨by simpa only [createdUserids] using (ih db h).1,
        fun v hv => (ih db h).2 v (by simpa only [createdUserids] using hv)⟩
    | listMessagesFor uid =>
      exact ⟨by simpa only [createdUserids] using (ih db h).1,
        fun v hv => (ih db h).2 v (by simpa only [createdUserids] using hv)⟩
    | listAllMessages =>
      exact ⟨by simpa only [createdUserids] using (ih db h).1,
        fun v hv => (ih db h).2 v (by simpa only [createdUserids] using hv)⟩

/-- C3: in every state reachable from the fresh database by any request
sequence the stored userids are pairwise distinct (the UNIQUE constraint
turns a colliding insert into a 500 that leaves the table unchanged); the
userids returned by the successful creations of a run are pairwise
distinct; and a successful creation's response body carries exactly the
server-generated userid, whatever the client-supplied username was. -/
theorem userid_uniqueness (ops : List Op) :
    (userids (runOps initDB ops)).Nodup ∧
    (createdUserids initDB ops).Nodup ∧
    ∀ (db : DB) (uid : String) (uname : Option String),
      ((postUsers db uid uname).2).status = 200 →
      ((postUsers db uid uname).2).body
        = Json.obj [("userid", JVal.str uid)] := by
  refine ⟨userids_runOps_nodup ops initDB (by simp [userids, initDB]),
    (createdUserids_spec ops initDB (by simp [userids, initDB])).1,
    ?_⟩
  intro db uid uname h
  obtain ⟨u, _, _, _, h4⟩ := postUsers_success db uid uname h
  rw [h4]

theorem userid_uniqueness_witness :
    (userids (runOps initDB [Op.createUser "a" (some "alice"),
        Op.createUser "b" (some "bob")])).Nodup ∧
    (createdUserids initDB [Op.createUser "a" (some "alice"),
        Op.createUser "b" (some "bob")]).Nodup ∧
    ((postUsers initDB "c" (some "carol")).2).body
        = Json.obj [("userid", JVal.str "c")] := by
  have h := userid_uniqueness
    [Op.createUser "a" (some "alice"), Op.createUser "b" (some "bob")]
  exact ⟨h.1, h.2.1, h.2.2 initDB "c" (some "carol") (by decide)⟩

/-- Across a run, the `messages` table accumulates exactly the rows
inserted by the successful send-message requests, in order. -/
theorem runOps_messages (ops : List Op) (db : DB) :
    (runOps db ops).messages = db.messages ++ sentRows db ops := by
  induction ops generalizing db with
  | nil => simp [runOps, sentRows]
  | cons op rest ih =>
    cases op with
    | createUser uid uname =>
      have h1 : (applyOp db (Op.createUser uid uname)).1.messages
          = db.messages := postUsers_messages db uid uname
      calc (runOps db (Op.createUser uid uname :: rest)).messages
          = (runOps (applyOp db (Op.createUser uid uname)).1 rest).messages :=
            rfl
        _ = (applyOp db (Op.createUser uid uname)).1.messages
              ++ sentRows (applyOp db (Op.createUser uid uname)).1 rest :=
            ih _
        _ = db.messages ++ sentRows db (Op.createUser uid uname :: rest) := by
            rw [h1]
            rfl
    | sendMessage s r m =>
      rcases s with _ | a <;> rcases r with _ | b <;> rcases m with _ | c <;>
        simp [runOps, sentRows, applyOp, postMessages, insertMessage,
          messageInsertCallback, ih, List.append_assoc]
    | listUsers => simpa [runOps, sentRows, applyOp, getUsers] using ih db
    | listMessagesFor uid =>
      simpa [runOps, sentRows, applyOp, getMessagesFor] using ih db
    | listAllMessages =>
      simpa [runOps, sentRows, applyOp, getSuperMessages] using ih db

/-- C6: `GET /super/messages` answers 200 with the unfiltered encoding of
the whole `messages` table for every database state — no filtering and no
precondition standing in for authorization — and after any run from the
fresh database that table holds exactly the rows the successful
send-message requests inserted. -/
theorem super_listing_complete (ops : List Op) :
    (∀ db : DB, getSuperMessages db
        = (db, ⟨200, Json.arr
            ((selectAllMessages db).map encodeMessageRow)⟩)) ∧
    (∀ db : DB, selectAllMessages db = db.messages) ∧
    (runOps initDB ops).messages = sentRows initDB ops := by
  refine ⟨fun db => rfl, fun db => rfl, ?_⟩
  simpa [initDB] using runOps_messages ops initDB

/-- C9: the three GET handlers return the database unchanged; a
`POST /messages` never touches `users` and, when successful, appends
exactly one row to `messages` (on failure it changes nothing); dually a
`POST /users` never touches `messages` and, when successful, appends
exactly one row to `users` (on failure it changes nothing). -/
theorem frame_properties (db : DB) (uid : String) (uname : Option String)
    (s r m : Option String) (p : String) :
    (getUsers db).1 = db ∧
    (getMessagesFor db p).1 = db ∧
    (getSuperMessages db).1 = db ∧
    (postMessages db s r m).1.users = db.users ∧
    (((postMessages db s r m).2).status = 200 →
       ∃ row, (postMessages db s r m).1.messages = db.messages ++ [row]) ∧
    (((postMessages db s r m).2).status ≠ 200 →
       (postMessages db s r m).1 = db) ∧
    (postUsers db uid uname).1.messages = db.messages ∧
    (((postUsers db uid uname).2).status = 200 →
       ∃ row, (postUsers db uid uname).1.users = db.users ++ [row]) ∧
    (((postUsers db uid uname).2).status ≠ 200 →
       (postUsers db uid uname).1 = db) := by
  refine ⟨rfl, rfl, rfl, postMessages_users db s r m, ?_, ?_,
    postUsers_messages db uid uname, ?_, ?_⟩
  · intro h
    rcases s with _ | a <;> rcases r with _ | b <;> rcases m with _ | c <;>
      first
        | exact ⟨⟨db.messagesNextId, a, b, c⟩, rfl⟩
        | (rw [postMessages_missing db _ _ _ (by simp)] at h
           simp [internalServerError] at h)
  · intro h
    rcases s with _ | a <;> rcases r with _ | b <;> rcases m with _ | c <;>
      first
        | exact absurd rfl h
        | (rw [postMessages_missing db _ _ _ (by simp)])
  · intro h
    obtain ⟨u, _, _, h1, _⟩ := postUsers_success db uid uname h
    exact ⟨⟨db.usersNextId, uid, u⟩, by rw [h1]⟩
  · intro h
    rw [postUsers_failure db uid uname h]

theorem frame_properties_witness :
    (getUsers initDB).1 = initDB ∧
    (∃ row, (postMessages initDB (some "a") (some "b") (some "hi")).1.messages
        = initDB.messages ++ [row]) ∧
    (∃ row, (postUsers initDB "u" (some "alice")).1.users
        = initDB.users ++ [row]) ∧
    (postMessages initDB none none none).1 = initDB ∧
    (postUsers initDB "u2" none).1 = initDB := by
  have h1 := frame_properties initDB "u" (some "alice")
      (some "a") (some "b") (some "hi") "p"
  have h2 := frame_properties initDB "u2" none none none none "p"
  exact ⟨h1.1, h1.2.2.2.2.1 (by decide), h1.2.2.2.2.2.2.2.1 (by decide),
    h2.2.2.2.2.2.1 (by decide), h2.2.2.2.2.2.2.2.2 (by decide)⟩

end ChatApp
